import Mathlib

/-!
Shallow embedding of the `sca_rhythm` workflow engine
(`src/sca_rhythm/__init__.py`).

The engine drives ordered multi-step workflows over an external task
execution backend (celery) and a document store (mongo).  Pure logic is
translated directly; external collaborators (the backend's status
function, the backend's result collection, the JSON decoder) become
function parameters; dispatch / revoke / persistence side effects
become an explicit effect list returned by each operation.
-/

set_option maxRecDepth 4000

namespace Rhythm

/-- A small model of Python values, enough for task arguments and
decoded JSON results. -/
inductive PyVal where
  | pnone
  | pstr (s : String)
  | pint (n : Int)
  | pbool (b : Bool)
deriving DecidableEq, Repr

/-- Celery status strings, as used by the source
(`celery.states.*` plus the custom `PROGRESS`). -/
def SUCCESS : String := "SUCCESS"

def PENDING : String := "PENDING"

def STARTED : String := "STARTED"

def FAILURE : String := "FAILURE"

def RETRY : String := "RETRY"

def REVOKED : String := "REVOKED"

def PROGRESS : String := "PROGRESS"

/-- One run record appended to a step's `task_runs`
(`{'date_start': ..., 'task_id': ...}`, `end_time` set later). -/
structure RunRecord where
  task_id : String
  date_start : Option Nat := none
  end_time : Option Nat := none
deriving DecidableEq, Repr

/-- A step dict inside a workflow document: `name`, `task`, and the
`task_runs` history (`step.get('task_runs', [])` reads a missing key
as `[]`, so absence is modelled as the empty list). -/
structure Step where
  name : String
  task : String
  task_runs : List RunRecord := []
deriving DecidableEq, Repr

/-- The persisted workflow document (`self.workflow`). -/
structure WorkflowDoc where
  id : String
  steps : List Step
  wf_name : Option String := none
  created_at : Option Nat := none
  updated_at : Option Nat := none
deriving DecidableEq, Repr

/-- A raw step dict handed to the constructor before validation:
`name` / `task` keys may be missing. -/
structure RawStep where
  name : Option String := none
  task : Option String := none
deriving DecidableEq, Repr

/-- The execution backend's stored record for one dispatched task
(`self.app.backend.collection.find_one({'_id': task_id})`), restricted
to the fields the engine reads: `args` and the raw `result` payload
(`none` models both a missing `result` key and a stored `None`). -/
structure TaskRecord where
  args : List PyVal
  result : Option String := none
deriving DecidableEq, Repr

/-- The `result` field of a task instance after `get_task_instance`
post-processing: absent/None, JSON-decoded, or left as the raw
undecodable payload. -/
inductive ResultField where
  | absent
  | parsed (v : PyVal)
  | raw (s : String)
deriving DecidableEq, Repr

/-- A task instance as returned by `get_task_instance`: the stored
record with `date_start` attached and `result` post-processed. -/
structure TaskInst where
  args : List PyVal
  result : ResultField := ResultField.absent
  date_start : Option Nat := none
deriving DecidableEq, Repr

/-- Observable side effects of an engine operation:
`send_task` dispatches, `control.revoke` cancels, and the two
document-store writes. -/
inductive Effect where
  | sendTask (task : String) (args : List PyVal) (kwargs : List (String × PyVal))
  | revoke (task_id : String) (terminate : Bool)
  | insertDoc (doc : WorkflowDoc)
  | updateDoc (doc : WorkflowDoc)
deriving DecidableEq, Repr

/-- `app.backend.get_status`: maps a task id to a celery status string. -/
def Backend := String → String

/-- `app.backend.collection.find_one`: maps a task id to its stored
record if one exists. -/
def TaskCol := String → Option TaskRecord

/-- `json.loads`, as an external decoder: `none` means decoding raises. -/
def JsonDec := String → Option PyVal

/-- Result of `pause()`. -/
structure PauseResult where
  paused : Bool
  revoked_step : Option (String × String × String) := none
deriving DecidableEq, Repr

/-- Result of `resume()`. -/
structure ResumeResult where
  resumed : Bool
  restarted_step : Option (String × String) := none
deriving DecidableEq, Repr

/-- Python dict assignment `d[k] = v`: replaces the value in place if
the key exists, otherwise appends the pair. -/
def dictSet (d : List (String × PyVal)) (k : String) (v : PyVal) :
    List (String × PyVal) :=
  if d.any (fun p => p.1 = k) then
    d.map (fun p => if p.1 = k then (k, v) else p)
  else
    d ++ [(k, v)]

/-- `duplicates(items)`: the distinct items occurring more than once
(`Counter(items) - Counter(set(items))` keeps exactly those keys). -/
def duplicates (items : List String) : List String :=
  (items.filter (fun x => 1 < items.count x)).dedup

/-- The per-step validation loop of `Workflow.__init__` (create mode):
each step must have a `name` key, a non-empty name, and a `task` key;
the first violated assert raises. -/
def check_steps : List RawStep → Except String Unit
  | [] => Except.ok ()
  | s :: rest =>
    match s.name with
    | none => Except.error "step does not have name key"
    | some n =>
      if n.length = 0 then Except.error "step name is empty"
      else
        match s.task with
        | none => Except.error "step does not have task key"
        | some _ => check_steps rest

/-- A validated raw step as stored in the document (`task_runs` starts
absent, read back as `[]`).  Defaults are dead under validation, which
guarantees both keys are present. -/
def RawStep.toStep (s : RawStep) : Step :=
  { name := s.name.getD "", task := s.task.getD "", task_runs := [] }

/-- The create branch of `Workflow.__init__`: validate the step list
(asserts, modelled as `Except.error`), then build the document and
insert it.  The insert effect exists only on the success path, exactly
as the Python `insert_one` runs only after every assert passed. -/
def createWorkflow (steps : List RawStep) (name : Option String)
    (newId : String) (now : Nat) :
    Except String (WorkflowDoc × List Effect) :=
  if steps.length = 0 then Except.error "steps is empty"
  else
    match check_steps steps with
    | Except.error e => Except.error e
    | Except.ok () =>
      let names := steps.map (fun s => s.name.getD "")
      if duplicates names ≠ [] then
        Except.error "Steps with duplicate names"
      else
        let doc : WorkflowDoc :=
          { id := newId
            steps := steps.map RawStep.toStep
            wf_name := name
            created_at := some now }
        Except.ok (doc, [Effect.insertDoc doc])

/-- `Workflow.__init__`: load by id when `workflow_id` is given
(ignoring `steps`), else create from `steps`, else fail. -/
def workflowInit (db : String → Option WorkflowDoc)
    (workflow_id : Option String) (steps : Option (List RawStep))
    (name : Option String) (newId : String) (now : Nat) :
    Except String (WorkflowDoc × List Effect) :=
  match workflow_id with
  | some wid =>
    match db wid with
    | some doc => Except.ok (doc, [])
    | none => Except.error "Workflow is not found"
  | none =>
    match steps with
    | some ss => createWorkflow ss name newId now
    | none => Except.error "Either workflow_id or steps should not be None"

namespace Workflow

/-- `get_step_status`: status of the last task run, `PENDING` if the
step has never run. -/
def get_step_status (backend : Backend) (step : Step) : String :=
  match step.task_runs.getLast? with
  | some r => backend r.task_id
  | none => PENDING

/-- Recursion for `get_pending_step`, carrying the enumeration index. -/
def get_pending_step_aux (backend : Backend) : List Step → Nat →
    Option (Nat × String)
  | [], _ => none
  | s :: rest, i =>
    let st := get_step_status backend s
    if st ≠ SUCCESS then some (i, st)
    else get_pending_step_aux backend rest (i + 1)

/-- `get_pending_step`: the first `(index, status)` whose status is
not `SUCCESS`, or `none` when all steps succeeded. -/
def get_pending_step (backend : Backend) (wf : WorkflowDoc) :
    Option (Nat × String) :=
  get_pending_step_aux backend wf.steps 0

/-- `get_workflow_status`: derives the workflow-level status from the
pending step. -/
def get_workflow_status (backend : Backend) (wf : WorkflowDoc) : String :=
  match get_pending_step backend wf with
  | some (step_idx, task_status) =>
    if step_idx = 0 ∧ task_status = PENDING then PENDING
    else if task_status = STARTED ∨ task_status = RETRY ∨
        task_status = PENDING then STARTED
    else task_status
  | none => SUCCESS

/-- `get_step`: first step with the given name
(`dropwhile` + `next(it, None)`). -/
def get_step (steps : List Step) (step_name : String) : Option Step :=
  (steps.dropWhile (fun s => s.name ≠ step_name)).head?

/-- `get_next_step`: the step after the first one with the given name
(`dropwhile`, skip one, `next(it, None)`). -/
def get_next_step (steps : List Step) (step_name : String) : Option Step :=
  match steps.dropWhile (fun s => s.name ≠ step_name) with
  | [] => none
  | _ :: rest => rest.head?

/-- `start(*args, **kwargs)`: dispatch the first step's task with the
caller's args and kwargs, the kwargs augmented with `workflow_id` and
`step`.  No document write, no status check.  (The empty-steps branch
is unreachable: the document invariant keeps `steps` non-empty; in
Python it would raise IndexError.) -/
def start (wf : WorkflowDoc) (args : List PyVal)
    (kwargs : List (String × PyVal)) : List Effect :=
  match wf.steps.head? with
  | some first_step =>
    let kw := dictSet (dictSet kwargs "workflow_id" (PyVal.pstr wf.id))
      "step" (PyVal.pstr first_step.name)
    [Effect.sendTask first_step.task args kw]
  | none => []

/-- `pause()`: if the pending step is plausibly in flight (status not
`SUCCESS`/`FAILURE`) and has at least one run record, revoke the latest
run's task with `terminate=True`.  (The out-of-range index branch is
unreachable: `get_pending_step` only returns indices of `wf.steps`.) -/
def pause (backend : Backend) (wf : WorkflowDoc) :
    PauseResult × List Effect :=
  match get_pending_step backend wf with
  | some (i, status) =>
    if status ≠ SUCCESS ∧ status ≠ FAILURE then
      match wf.steps.get? i with
      | some step =>
        match step.task_runs.getLast? with
        | some r =>
          ({ paused := true
             revoked_step := some (r.task_id, step.task, step.name) },
            [Effect.revoke r.task_id true])
        | none => ({ paused := false }, [])
      | none => ({ paused := false }, [])
    else ({ paused := false }, [])
  | none => ({ paused := false }, [])

/-- `get_task_instance`: look up the backend's stored record, attach
`date_start`, and JSON-decode the result; a decode failure is caught
and the raw payload kept. -/
def get_task_instance (dec : JsonDec) (col : TaskCol) (task_id : String)
    (date_start : Option Nat) : Option TaskInst :=
  match col task_id with
  | none => none
  | some t =>
    some
      { args := t.args
        date_start := date_start
        result :=
          match t.result with
          | none => ResultField.absent
          | some s =>
            match dec s with
            | some v => ResultField.parsed v
            | none => ResultField.raw s }

/-- `get_last_run_task_instance`: backend record of the step's latest
run, `none` when the step never ran or the record is missing. -/
def get_last_run_task_instance (dec : JsonDec) (col : TaskCol)
    (step : Step) : Option TaskInst :=
  match step.task_runs.getLast? with
  | some r => get_task_instance dec col r.task_id r.date_start
  | none => none

/-- `resume(force, args)`: re-dispatch the pending step when its status
is `FAILURE`/`REVOKED` or `force` is set, preferring the last run's
stored args over the caller's; the assert (no stored run and no caller
args) is modelled as `Except.error`.  (The out-of-range index branch is
unreachable, as in `pause`.) -/
def resume (backend : Backend) (dec : JsonDec) (col : TaskCol)
    (wf : WorkflowDoc) (force : Bool) (args : Option (List PyVal)) :
    Except String (ResumeResult × List Effect) :=
  match get_pending_step backend wf with
  | some (i, status) =>
    if (status = FAILURE ∨ status = REVOKED) ∨ force then
      match wf.steps.get? i with
      | some step =>
        match get_last_run_task_instance dec col step, args with
        | none, none =>
          Except.error "no args are provided and there is no last run task"
        | task_inst, _ =>
          let task_args :=
            match task_inst with
            | some t => t.args
            | none => args.getD []
          let kwargs := [("workflow_id", PyVal.pstr wf.id),
            ("step", PyVal.pstr step.name)]
          Except.ok
            ({ resumed := true
               restarted_step := some (step.name, step.task) },
              [Effect.sendTask step.task task_args kwargs])
      | none => Except.ok ({ resumed := false }, [])
    else Except.ok ({ resumed := false }, [])
  | none => Except.ok ({ resumed := false }, [])

/-- `on_step_success(retval, step_name)`: dispatch the next step's task
with `(retval[0],)` and fresh correlation kwargs; no dispatch when the
completed step is last.  (The empty-`retval` branch is unreachable in
the hook protocol; in Python it would raise IndexError.) -/
def on_step_success (wf : WorkflowDoc) (retval : List PyVal)
    (step_name : String) : List Effect :=
  match get_next_step wf.steps step_name with
  | some next_step =>
    match retval.head? with
    | some v =>
      [Effect.sendTask next_step.task [v]
        [("workflow_id", PyVal.pstr wf.id),
          ("step", PyVal.pstr next_step.name)]]
    | none => []
  | none => []

/-- In-place mutation of the first step with the given name, as Python
mutates the dict returned by `get_step`.  No match leaves the list
unchanged (Python would raise on `None`). -/
def set_step (steps : List Step) (step_name : String) (f : Step → Step) :
    List Step :=
  match steps with
  | [] => []
  | s :: rest =>
    if s.name = step_name then f s :: rest
    else s :: set_step rest step_name f

/-- `update()`: stamp `updated_at` and write the document back. -/
def update (wf : WorkflowDoc) (now : Nat) : WorkflowDoc × List Effect :=
  let wf2 := { wf with updated_at := some now }
  (wf2, [Effect.updateDoc wf2])

/-- `on_step_start(step_name, task_id)`: append a fresh run record
`{date_start, task_id}` to the named step's `task_runs`, then persist. -/
def on_step_start (wf : WorkflowDoc) (step_name : String)
    (task_id : String) (now : Nat) : WorkflowDoc × List Effect :=
  let wf2 :=
    { wf with
      steps := set_step wf.steps step_name (fun s =>
        { s with task_runs := s.task_runs ++
            [{ task_id := task_id, date_start := some now }] }) }
  update wf2 now

/-- Set `end_time` on the last run record, if any
(the body of `update_step_end_time`'s `if len(task_runs) > 0`). -/
def set_end_time (runs : List RunRecord) (now : Nat) : List RunRecord :=
  match runs.getLast? with
  | none => runs
  | some r => runs.dropLast ++ [{ r with end_time := some now }]

/-- `update_step_end_time(step_name)`: stamp `end_time` on the named
step's last run record, then persist. -/
def update_step_end_time (wf : WorkflowDoc) (step_name : String)
    (now : Nat) : WorkflowDoc × List Effect :=
  let wf2 :=
    { wf with
      steps := set_step wf.steps step_name (fun s =>
        { s with task_runs := set_end_time s.task_runs now }) }
  update wf2 now

/-! Characterisation of `get_pending_step` -/

theorem get_pending_step_aux_eq_none (backend : Backend) :
    ∀ (steps : List Step) (i : Nat),
    get_pending_step_aux backend steps i = none ↔
      ∀ s ∈ steps, get_step_status backend s = SUCCESS := by
  intro steps
  induction steps with
  | nil => intro i; simp [get_pending_step_aux]
  | cons s rest ih =>
    intro i
    by_cases h : get_step_status backend s = SUCCESS
    · simp [get_pending_step_aux, h, ih]
    · simp [get_pending_step_aux, h]

theorem get_pending_step_aux_eq_some (backend : Backend) :
    ∀ (steps : List Step) (i j : Nat) (st : String),
    get_pending_step_aux backend steps i = some (j, st) →
    ∃ k step, j = i + k ∧ steps.get? k = some step ∧
      get_step_status backend step = st ∧ st ≠ SUCCESS ∧
      ∀ m s', m < k → steps.get? m = some s' →
        get_step_status backend s' = SUCCESS := by
  intro steps
  induction steps with
  | nil => intro i j st h; simp [get_pending_step_aux] at h
  | cons s rest ih =>
    intro i j st h
    by_cases hs : get_step_status backend s = SUCCESS
    · rw [get_pending_step_aux] at h
      simp only [hs, ne_eq, not_true_eq_false, if_false] at h
      obtain ⟨k, step, hk, hget, hst, hne, hprev⟩ := ih (i + 1) j st h
      refine ⟨k + 1, step, by omega, by simpa using hget, hst, hne, ?_⟩
      intro m s' hm hget'
      cases m with
      | zero =>
        simp only [List.get?] at hget'
        cases hget'
        exact hs
      | succ m' =>
        exact hprev m' s' (by omega) (by simpa using hget')
    · rw [get_pending_step_aux] at h
      simp only [hs, ne_eq, not_false_eq_true, if_true, Option.some.injEq,
        Prod.mk.injEq] at h
      obtain ⟨hj, hst⟩ := h
      exact ⟨0, s, by omega, rfl, hst, hst ▸ hs, by omega⟩

theorem get_pending_step_eq_none (backend : Backend) (wf : WorkflowDoc) :
    get_pending_step backend wf = none ↔
      ∀ s ∈ wf.steps, get_step_status backend s = SUCCESS :=
  get_pending_step_aux_eq_none backend wf.steps 0

theorem get_pending_step_eq_some (backend : Backend) (wf : WorkflowDoc)
    (i : Nat) (st : String)
    (h : get_pending_step backend wf = some (i, st)) :
    ∃ step, wf.steps.get? i = some step ∧
      get_step_status backend step = st ∧ st ≠ SUCCESS ∧
      ∀ m s', m < i → wf.steps.get? m = some s' →
        get_step_status backend s' = SUCCESS := by
  obtain ⟨k, step, hk, hget, hst, hne, hprev⟩ :=
    get_pending_step_aux_eq_some backend wf.steps 0 i st h
  subst hk
  exact ⟨step, by simpa using hget, hst, hne, fun m s' hm => hprev m s' (by omega)⟩

end Workflow

/-! Concrete example instances used by witnesses -/

/-- An example backend: task `t1` has succeeded, everything else failed. -/
def bEx : Backend := fun tid => if tid = "t1" then "SUCCESS" else "FAILURE"

/-- An example two-step workflow with one run on each step. -/
def wfEx : WorkflowDoc :=
  { id := "w"
    steps := [
      { name := "a", task := "ta", task_runs := [{ task_id := "t1" }] },
      { name := "b", task := "tb", task_runs := [{ task_id := "t2" }] }] }

/-- An example one-step workflow that has never run. -/
def wfFresh : WorkflowDoc :=
  { id := "w0", steps := [{ name := "a", task := "ta" }] }

/-- An example one-step workflow whose single run is task `t1`
(succeeded under `bEx`). -/
def wfDone : WorkflowDoc :=
  { id := "w1"
    steps := [{ name := "a", task := "ta", task_runs := [{ task_id := "t1" }] }] }

/-- An example backend: task `t1` has succeeded, everything else is
still `STARTED`. -/
def bStarted : Backend := fun tid => if tid = "t1" then "SUCCESS" else "STARTED"

/-- A JSON decoder that fails on every payload. -/
def decFail : JsonDec := fun _ => none

/-- A task collection with no stored records. -/
def colEmpty : TaskCol := fun _ => none

/-! Claim C1 -/

/-- C1: `get_workflow_status` returns `SUCCESS` when every step's
derived status is `SUCCESS`; otherwise, with `(i, status)` the first
step in order whose status is not `SUCCESS` (as found by
`get_pending_step`), it returns `PENDING` when `i = 0` and the status
is `PENDING`, `STARTED` when the status is `STARTED`, `RETRY` or
`PENDING`, and the status verbatim otherwise. -/
theorem C1_get_workflow_status (backend : Backend) (wf : WorkflowDoc) :
    ((∀ s ∈ wf.steps, Workflow.get_step_status backend s = SUCCESS) →
      Workflow.get_workflow_status backend wf = SUCCESS) ∧
    (∀ i st, Workflow.get_pending_step backend wf = some (i, st) →
      (∃ step, wf.steps.get? i = some step ∧
        Workflow.get_step_status backend step = st ∧ st ≠ SUCCESS ∧
        ∀ m s', m < i → wf.steps.get? m = some s' →
          Workflow.get_step_status backend s' = SUCCESS) ∧
      Workflow.get_workflow_status backend wf =
        (if i = 0 ∧ st = PENDING then PENDING
         else if st = STARTED ∨ st = RETRY ∨ st = PENDING then STARTED
         else st)) := by
  constructor
  · intro h
    have hnone := (Workflow.get_pending_step_eq_none backend wf).2 h
    simp [Workflow.get_workflow_status, hnone]
  · intro i st h
    refine ⟨Workflow.get_pending_step_eq_some backend wf i st h, ?_⟩
    simp [Workflow.get_workflow_status, h]

/-- C1 witness: on `wfEx` with backend `bEx`, the pending step is
`(1, FAILURE)` and the workflow status is `FAILURE`. -/
theorem C1_witness :
    Workflow.get_pending_step bEx wfEx = some (1, "FAILURE") ∧
    Workflow.get_workflow_status bEx wfEx = "FAILURE" := by
  have h := (C1_get_workflow_status bEx wfEx).2 1 "FAILURE" (by decide)
  refine ⟨by decide, ?_⟩
  rw [h.2]
  decide

/-! Claim C4 -/

/-- C4: `pause` returns `{paused: false}` and issues no effect when all
steps succeeded, or when the pending step has no run records, or when
its status is `SUCCESS` or `FAILURE`; when the pending step's status is
neither `SUCCESS` nor `FAILURE` and it has at least one run record,
`pause` issues exactly one terminate-revoke for the latest run's
`task_id` and returns `{paused: true}` identifying the revoked step. -/
theorem C4_pause (backend : Backend) (wf : WorkflowDoc) :
    (Workflow.get_pending_step backend wf = none →
      Workflow.pause backend wf = ({ paused := false }, [])) ∧
    (∀ i st step, Workflow.get_pending_step backend wf = some (i, st) →
      wf.steps.get? i = some step →
      ((step.task_runs = [] ∨ st = SUCCESS ∨ st = FAILURE) →
        Workflow.pause backend wf = ({ paused := false }, [])) ∧
      (st ≠ SUCCESS → st ≠ FAILURE →
        ∀ r, step.task_runs.getLast? = some r →
          Workflow.pause backend wf =
            ({ paused := true
               revoked_step := some (r.task_id, step.task, step.name) },
              [Effect.revoke r.task_id true]))) := by
  constructor
  · intro h
    simp [Workflow.pause, h]
  · intro i st step h hget
    have hget2 : wf.steps[i]? = some step := by
      rw [← List.get?_eq_getElem?]; exact hget
    constructor
    · rintro (hruns | hst | hst)
      · rcases Decidable.em (st ≠ SUCCESS ∧ st ≠ FAILURE) with hc | hc
        · simp [Workflow.pause, h, hc, hget2, hruns]
        · simp [Workflow.pause, h, hc]
      · simp [Workflow.pause, h, hst]
      · simp [Workflow.pause, h, hst]
    · intro h1 h2 r hr
      simp [Workflow.pause, h, h1, h2, hget2, hr]

/-- C4 witness: on `wfEx` with backend `bEx` the pending step is step 1
with status `FAILURE`, so `pause` does nothing; on `bStarted` (step 1
reported `STARTED`) `pause` revokes task `t2` exactly once. -/
theorem C4_witness :
    Workflow.pause bEx wfEx = ({ paused := false }, []) ∧
    Workflow.pause bStarted wfEx =
      ({ paused := true, revoked_step := some ("t2", "tb", "b") },
        [Effect.revoke "t2" true]) :=
  ⟨((C4_pause bEx wfEx).2 1 "FAILURE"
      { name := "b", task := "tb", task_runs := [{ task_id := "t2" }] }
      (by decide) (by decide)).1 (Or.inr (Or.inr (by decide))),
   ((C4_pause bStarted wfEx).2 1 "STARTED"
      { name := "b", task := "tb", task_runs := [{ task_id := "t2" }] }
      (by decide) (by decide)).2 (by decide) (by decide)
      { task_id := "t2" } (by decide)⟩

/-! Claim C2 -/

/-- C2: when the pending step is eligible (status `FAILURE`/`REVOKED`
or `force`), `resume` re-dispatches with the args stored in the last
run's backend record when that record exists, with the caller's args
when it does not, and fails with a validation error (dispatching
nothing) when neither is available. -/
theorem C2_resume_args (backend : Backend) (dec : JsonDec) (col : TaskCol)
    (wf : WorkflowDoc) (force : Bool) (args : Option (List PyVal))
    (i : Nat) (st : String) (step : Step)
    (h : Workflow.get_pending_step backend wf = some (i, st))
    (helig : (st = FAILURE ∨ st = REVOKED) ∨ force = true)
    (hget : wf.steps.get? i = some step) :
    (∀ t, Workflow.get_last_run_task_instance dec col step = some t →
      Workflow.resume backend dec col wf force args =
        Except.ok
          ({ resumed := true, restarted_step := some (step.name, step.task) },
            [Effect.sendTask step.task t.args
              [("workflow_id", PyVal.pstr wf.id),
                ("step", PyVal.pstr step.name)]])) ∧
    (Workflow.get_last_run_task_instance dec col step = none →
      (∀ a, args = some a →
        Workflow.resume backend dec col wf force args =
          Except.ok
            ({ resumed := true, restarted_step := some (step.name, step.task) },
              [Effect.sendTask step.task a
                [("workflow_id", PyVal.pstr wf.id),
                  ("step", PyVal.pstr step.name)]])) ∧
      (args = none →
        Workflow.resume backend dec col wf force args =
          Except.error "no args are provided and there is no last run task")) := by
  have hget2 : wf.steps[i]? = some step := by
    rw [← List.get?_eq_getElem?]; exact hget
  have helig2 : (st = FAILURE ∨ st = REVOKED) ∨ force := by
    rcases helig with h1 | h2
    · exact Or.inl h1
    · exact Or.inr (by simp [h2])
  constructor
  · intro t ht
    simp [Workflow.resume, h, helig2, hget2, ht]
  · intro hnone
    constructor
    · intro a ha
      simp [Workflow.resume, h, helig2, hget2, hnone, ha]
    · intro ha
      simp [Workflow.resume, h, helig2, hget2, hnone, ha]

/-- C2 witness: `resume(force=true, args=[42])` on the never-run
workflow `wfFresh` dispatches step `a`'s task with `[42]` exactly. -/
theorem C2_witness :
    Workflow.resume bEx decFail colEmpty wfFresh true (some [PyVal.pint 42]) =
      Except.ok
        ({ resumed := true, restarted_step := some ("a", "ta") },
          [Effect.sendTask "ta" [PyVal.pint 42]
            [("workflow_id", PyVal.pstr "w0"), ("step", PyVal.pstr "a")]]) :=
  ((C2_resume_args bEx decFail colEmpty wfFresh true (some [PyVal.pint 42])
      0 PENDING { name := "a", task := "ta" }
      (by decide) (Or.inr rfl) (by decide)).2 (by decide)).1
    [PyVal.pint 42] rfl

/-! Claim C3 -/

/-- C3 counterexample: `resume(force=false, args=None)` on a workflow
whose pending step has status `PENDING` (never run) does not fail with
a validation error — the step is not eligible, so the call returns
`{resumed: false}` with no dispatch. -/
theorem C3_counterexample :
    Workflow.get_pending_step bEx wfFresh = some (0, PENDING) ∧
    Workflow.resume bEx decFail colEmpty wfFresh false none =
      Except.ok ({ resumed := false }, []) := by
  constructor
  · decide
  · rfl

/-- C3 amended: `resume(force=false)` with no args returns
`{resumed: false}` and dispatches nothing both when all steps'
latest runs are `SUCCESS` and when the pending step's status is neither
`FAILURE` nor `REVOKED` (in particular `PENDING`, never run); the
validation error is only reachable for an eligible step. -/
theorem C3_resume_no_dispatch (backend : Backend) (dec : JsonDec)
    (col : TaskCol) (wf : WorkflowDoc) :
    (Workflow.get_pending_step backend wf = none →
      Workflow.resume backend dec col wf false none =
        Except.ok ({ resumed := false }, [])) ∧
    (∀ i st, Workflow.get_pending_step backend wf = some (i, st) →
      st ≠ FAILURE → st ≠ REVOKED →
      Workflow.resume backend dec col wf false none =
        Except.ok ({ resumed := false }, [])) := by
  constructor
  · intro h
    simp [Workflow.resume, h]
  · intro i st h h1 h2
    simp [Workflow.resume, h, h1, h2]

/-- C3 amended witness: the all-succeeded workflow `wfDone` and the
never-run workflow `wfFresh` both yield `{resumed: false}`. -/
theorem C3_witness :
    Workflow.resume bEx decFail colEmpty wfDone false none =
      Except.ok ({ resumed := false }, []) ∧
    Workflow.resume bEx decFail colEmpty wfFresh false none =
      Except.ok ({ resumed := false }, []) :=
  ⟨(C3_resume_no_dispatch bEx decFail colEmpty wfDone).1 (by decide),
   (C3_resume_no_dispatch bEx decFail colEmpty wfFresh).2 0 PENDING
      (by decide) (by decide) (by decide)⟩

/-! Claim C5 -/

theorem get_next_step_cons_of_ne (a : Step) (rest : List Step)
    (name : String) (ha : a.name ≠ name) :
    Workflow.get_next_step (a :: rest) name =
      Workflow.get_next_step rest name := by
  simp [Workflow.get_next_step, List.dropWhile_cons, ha]

theorem get_next_step_at (name : String) :
    ∀ (steps : List Step) (k : Nat) (s : Step),
    steps.get? k = some s → s.name = name →
    (∀ j s', j < k → steps.get? j = some s' → s'.name ≠ name) →
    Workflow.get_next_step steps name = steps.get? (k + 1) := by
  intro steps
  induction steps with
  | nil => intro k s h; simp at h
  | cons a rest ih =>
    intro k s h hname hprev
    cases k with
    | zero =>
      simp only [List.get?] at h
      cases h
      cases rest <;>
        simp [Workflow.get_next_step, List.dropWhile_cons, hname]
    | succ k' =>
      have ha : a.name ≠ name := hprev 0 a (Nat.succ_pos _) rfl
      rw [get_next_step_cons_of_ne a rest name ha]
      exact ih k' s (by simpa using h) hname
        (fun j s' hj hg => hprev (j + 1) s' (by omega) (by simpa using hg))

/-- C5: the after-success hook, given the completed step's name (the
first step with that name, at index `k`) and a non-empty return value,
dispatches the task of the step at index `k + 1` with exactly the first
element of the return value as single positional argument plus the
`workflow_id`/`step` correlation kwargs; when the completed step is the
last one, nothing is dispatched. -/
theorem C5_on_step_success (wf : WorkflowDoc) (v : PyVal)
    (rest : List PyVal) (step_name : String) (k : Nat) (s : Step)
    (hk : wf.steps.get? k = some s) (hname : s.name = step_name)
    (hfirst : ∀ j s', j < k → wf.steps.get? j = some s' →
      s'.name ≠ step_name) :
    (∀ next, wf.steps.get? (k + 1) = some next →
      Workflow.on_step_success wf (v :: rest) step_name =
        [Effect.sendTask next.task [v]
          [("workflow_id", PyVal.pstr wf.id),
            ("step", PyVal.pstr next.name)]]) ∧
    (wf.steps.get? (k + 1) = none →
      Workflow.on_step_success wf (v :: rest) step_name = []) := by
  have hnext := get_next_step_at step_name wf.steps k s hk hname hfirst
  constructor
  · intro next h
    rw [h] at hnext
    simp [Workflow.on_step_success, hnext]
  · intro h
    rw [h] at hnext
    simp [Workflow.on_step_success, hnext]

/-- C5 witness: on `wfEx`, completing step `a` with return value
`(7,)` dispatches `tb` with `[7]`; completing the last step `b`
dispatches nothing. -/
theorem C5_witness :
    Workflow.on_step_success wfEx [PyVal.pint 7] "a" =
      [Effect.sendTask "tb" [PyVal.pint 7]
        [("workflow_id", PyVal.pstr "w"), ("step", PyVal.pstr "b")]] ∧
    Workflow.on_step_success wfEx [PyVal.pint 7] "b" = [] :=
  ⟨(C5_on_step_success wfEx (PyVal.pint 7) [] "a" 0
      { name := "a", task := "ta", task_runs := [{ task_id := "t1" }] }
      (by decide) (by decide) (by omega)).1
      { name := "b", task := "tb", task_runs := [{ task_id := "t2" }] }
      (by decide),
   (C5_on_step_success wfEx (PyVal.pint 7) [] "b" 1
      { name := "b", task := "tb", task_runs := [{ task_id := "t2" }] }
      (by decide) (by decide)
      (by intro j s' hj hg
          interval_cases j
          · simp at hg
            cases hg
            decide)).2 (by decide)⟩

/-! Claim C8 -/

/-- C8: `start(args, kwargs)` emits exactly one dispatch — the first
step's task with the caller's args and the caller's kwargs augmented
with `workflow_id` and `step` (the first step's name) — and no
document-store effect; its result is independent of the steps' run
histories, so no status check is involved. -/
theorem C8_start (wf : WorkflowDoc) (first_step : Step)
    (rest : List Step) (args : List PyVal)
    (kwargs : List (String × PyVal)) (h : wf.steps = first_step :: rest) :
    Workflow.start wf args kwargs =
      [Effect.sendTask first_step.task args
        (dictSet (dictSet kwargs "workflow_id" (PyVal.pstr wf.id))
          "step" (PyVal.pstr first_step.name))] ∧
    (∀ f : Step → List RunRecord,
      Workflow.start
        { wf with
          steps := wf.steps.map (fun s => { s with task_runs := f s }) }
        args kwargs = Workflow.start wf args kwargs) := by
  constructor
  · simp [Workflow.start, h]
  · intro f
    simp [Workflow.start, h]

/-- C8 witness: `start` on the never-run `wfFresh` with args `[1]` and
kwargs `{x: 2}` dispatches `ta` once with the augmented kwargs. -/
theorem C8_witness :
    Workflow.start wfFresh [PyVal.pint 1] [("x", PyVal.pint 2)] =
      [Effect.sendTask "ta" [PyVal.pint 1]
        [("x", PyVal.pint 2), ("workflow_id", PyVal.pstr "w0"),
          ("step", PyVal.pstr "a")]] := by
  rw [(C8_start wfFresh { name := "a", task := "ta" } []
    [PyVal.pint 1] [("x", PyVal.pint 2)] rfl).1]
  decide

/-! Claim C6 -/

theorem check_steps_eq_ok_iff :
    ∀ steps : List RawStep,
    check_steps steps = Except.ok () ↔
      ∀ s ∈ steps, s.name ≠ none ∧ (s.name.getD "").length ≠ 0 ∧
        s.task ≠ none := by
  intro steps
  induction steps with
  | nil => simp [check_steps]
  | cons s rest ih =>
    cases hn : s.name with
    | none => simp [check_steps, hn]
    | some n =>
      by_cases hl : n.length = 0
      · simp [check_steps, hn, hl]
      · cases ht : s.task with
        | none => simp [check_steps, hn, hl, ht]
        | some t => simp [check_steps, hn, hl, ht, ih]

theorem duplicates_eq_nil_iff (l : List String) :
    duplicates l = [] ↔ l.Nodup := by
  rw [duplicates, List.dedup_eq_nil, List.filter_eq_nil_iff,
    List.nodup_iff_count_le_one]
  constructor
  · intro h a
    by_cases ha : a ∈ l
    · have := h a ha
      simp only [decide_eq_true_eq] at this
      omega
    · rw [List.count_eq_zero.2 ha]
      omega
  · intro h a ha
    have := h a
    simp only [decide_eq_true_eq]
    omega

/-- The validity condition of the create branch: a non-empty step list
whose steps all carry a non-empty `name` and a `task`, with no
duplicate names. -/
def validSteps (steps : List RawStep) : Prop :=
  steps ≠ [] ∧
    (∀ s ∈ steps, s.name ≠ none ∧ (s.name.getD "").length ≠ 0 ∧
      s.task ≠ none) ∧
    (steps.map (fun s => s.name.getD "")).Nodup

/-- C6: creation fails with a validation error — persisting nothing,
since the insert effect exists only on the success path — exactly when
the step list is empty, a step lacks a name or task, a name is empty,
or names collide; on every valid step list it succeeds and emits the
single insert of the built document. -/
theorem C6_create (steps : List RawStep) (name : Option String)
    (newId : String) (now : Nat) :
    (¬ validSteps steps →
      ∃ e, createWorkflow steps name newId now = Except.error e) ∧
    (validSteps steps →
      ∃ doc, createWorkflow steps name newId now =
        Except.ok (doc, [Effect.insertDoc doc])) := by
  constructor
  · intro hnv
    by_cases h0 : steps.length = 0
    · have h : createWorkflow steps name newId now =
          Except.error "steps is empty" := by simp [createWorkflow, h0]
      exact ⟨_, h⟩
    · cases hc : check_steps steps with
      | error e =>
        have h : createWorkflow steps name newId now = Except.error e := by
          simp [createWorkflow, h0, hc]
        exact ⟨e, h⟩
      | ok u =>
        cases u
        by_cases hd :
            duplicates (steps.map (fun s => s.name.getD "")) = []
        · exact absurd
            ⟨by intro h; exact h0 (by simp [h]),
              (check_steps_eq_ok_iff steps).1 hc,
              (duplicates_eq_nil_iff _).1 hd⟩ hnv
        · have h : createWorkflow steps name newId now =
              Except.error "Steps with duplicate names" := by
            simp [createWorkflow, h0, hc, hd]
          exact ⟨_, h⟩
  · rintro ⟨h1, h2, h3⟩
    have h0 : ¬ steps.length = 0 := by simpa using h1
    have hc := (check_steps_eq_ok_iff steps).2 h2
    have hd := (duplicates_eq_nil_iff
      (steps.map (fun s => s.name.getD ""))).2 h3
    refine ⟨WorkflowDoc.mk newId (steps.map RawStep.toStep) name
      (some now) none, ?_⟩
    simp [createWorkflow, h0, hc, hd]

/-- C6 witness: a valid two-step list creates and inserts one document;
a list with duplicate names fails. -/
theorem C6_witness :
    (∃ doc, createWorkflow
        [{ name := some "a", task := some "t1" },
          { name := some "b", task := some "t2" }] none "id1" 0 =
      Except.ok (doc, [Effect.insertDoc doc])) ∧
    (∃ e, createWorkflow
        [{ name := some "a", task := some "t1" },
          { name := some "a", task := some "t2" }] none "id1" 0 =
      Except.error e) :=
  ⟨(C6_create _ none "id1" 0).2 ⟨by decide, by decide, by decide⟩,
   (C6_create _ none "id1" 0).1 (by
      rintro ⟨-, -, h3⟩
      simp at h3)⟩

/-! Claim C7 -/

theorem set_step_length (step_name : String) (f : Step → Step) :
    ∀ steps : List Step,
    (Workflow.set_step steps step_name f).length = steps.length := by
  intro steps
  induction steps with
  | nil => simp [Workflow.set_step]
  | cons a rest ih =>
    by_cases ha : a.name = step_name
    · simp [Workflow.set_step, ha]
    · simp [Workflow.set_step, ha, ih]

theorem set_step_get? (step_name : String) (f : Step → Step) :
    ∀ (steps : List Step) (j : Nat),
    (Workflow.set_step steps step_name f).get? j = steps.get? j ∨
    ∃ s, steps.get? j = some s ∧
      (Workflow.set_step steps step_name f).get? j = some (f s) := by
  intro steps
  induction steps with
  | nil => intro j; left; simp [Workflow.set_step]
  | cons a rest ih =>
    intro j
    by_cases ha : a.name = step_name
    · cases j with
      | zero => exact Or.inr ⟨a, rfl, by simp [Workflow.set_step, ha]⟩
      | succ j' => left; simp [Workflow.set_step, ha]
    · cases j with
      | zero => left; simp [Workflow.set_step, ha]
      | succ j' =>
        rcases ih j' with h | ⟨s, h1, h2⟩
        · left
          simp only [List.get?_eq_getElem?] at h
          simp [Workflow.set_step, ha, h]
        · refine Or.inr ⟨s, by simpa using h1, ?_⟩
          simp only [List.get?_eq_getElem?] at h2
          simp [Workflow.set_step, ha, h2]

theorem set_end_time_spec (runs : List RunRecord) (now : Nat) :
    Workflow.set_end_time runs now = runs ∨
    ((Workflow.set_end_time runs now).dropLast = runs.dropLast ∧
      (Workflow.set_end_time runs now).length = runs.length ∧
      ∃ r, runs.getLast? = some r ∧
        (Workflow.set_end_time runs now).getLast? =
          some { r with end_time := some now }) := by
  cases hr : runs.getLast? with
  | none => left; simp [Workflow.set_end_time, hr]
  | some r =>
    right
    have hne : runs ≠ [] := by
      intro h
      rw [h] at hr
      simp at hr
    have hlen : 0 < runs.length := List.length_pos.2 hne
    have heq : Workflow.set_end_time runs now =
        runs.dropLast ++ [{ r with end_time := some now }] := by
      simp [Workflow.set_end_time, hr]
    refine ⟨?_, ?_, r, rfl, ?_⟩
    · rw [heq, List.dropLast_concat]
    · rw [heq]
      simp [List.length_dropLast]
      omega
    · rw [heq, List.getLast?_concat]

/-- C7: the two history-mutating operations preserve step count, step
names, step order and `task_runs` history: `on_step_start` changes a
step's `task_runs` only by appending the new run record, and
`update_step_end_time` only by setting `end_time` on the last record
(all earlier records, i.e. `dropLast`, unchanged). -/
theorem C7_history (wf : WorkflowDoc) (step_name task_id : String)
    (now : Nat) :
    ((Workflow.on_step_start wf step_name task_id now).1.steps.length =
        wf.steps.length ∧
      ∀ j s s', wf.steps.get? j = some s →
        (Workflow.on_step_start wf step_name task_id now).1.steps.get? j =
          some s' →
        s'.name = s.name ∧ s'.task = s.task ∧
        (s'.task_runs = s.task_runs ∨
          s'.task_runs = s.task_runs ++
            [{ task_id := task_id, date_start := some now,
               end_time := none }])) ∧
    ((Workflow.update_step_end_time wf step_name now).1.steps.length =
        wf.steps.length ∧
      ∀ j s s', wf.steps.get? j = some s →
        (Workflow.update_step_end_time wf step_name now).1.steps.get? j =
          some s' →
        s'.name = s.name ∧ s'.task = s.task ∧
        (s'.task_runs = s.task_runs ∨
          (s'.task_runs.dropLast = s.task_runs.dropLast ∧
            s'.task_runs.length = s.task_runs.length ∧
            ∃ r, s.task_runs.getLast? = some r ∧
              s'.task_runs.getLast? =
                some { r with end_time := some now }))) := by
  have hs1 : (Workflow.on_step_start wf step_name task_id now).1.steps =
      Workflow.set_step wf.steps step_name (fun s =>
        { s with task_runs := s.task_runs ++
            [{ task_id := task_id, date_start := some now }] }) := rfl
  have hs2 : (Workflow.update_step_end_time wf step_name now).1.steps =
      Workflow.set_step wf.steps step_name (fun s =>
        { s with task_runs := Workflow.set_end_time s.task_runs now }) := rfl
  constructor
  · rw [hs1]
    refine ⟨set_step_length _ _ _, ?_⟩
    intro j s s' hj hj'
    rcases set_step_get? step_name _ wf.steps j with h | ⟨t, h1, h2⟩
    · rw [hj, hj'] at h
      cases h
      exact ⟨rfl, rfl, Or.inl rfl⟩
    · rw [hj] at h1
      cases h1
      rw [hj'] at h2
      cases h2
      exact ⟨rfl, rfl, Or.inr rfl⟩
  · rw [hs2]
    refine ⟨set_step_length _ _ _, ?_⟩
    intro j s s' hj hj'
    rcases set_step_get? step_name _ wf.steps j with h | ⟨t, h1, h2⟩
    · rw [hj, hj'] at h
      cases h
      exact ⟨rfl, rfl, Or.inl rfl⟩
    · rw [hj] at h1
      cases h1
      rw [hj'] at h2
      cases h2
      exact ⟨rfl, rfl, set_end_time_spec s.task_runs now⟩

/-- The single step of `wfDone`, before and after `on_step_start`
appends the run of task `t2` at time 5. -/
def stepA1 : Step :=
  { name := "a", task := "ta", task_runs := [{ task_id := "t1" }] }

def stepA2 : Step :=
  { name := "a", task := "ta"
    task_runs := [{ task_id := "t1" },
                  { task_id := "t2", date_start := some 5 }] }

/-- C7 witness: starting step `a` of `wfDone` at time 5 with task `t2`
turns `stepA1` into `stepA2`, whose history is exactly the old history
with one record appended (name and task unchanged). -/
theorem C7_witness :
    (Workflow.on_step_start wfDone "a" "t2" 5).1.steps.get? 0 =
      some stepA2 ∧
    stepA2.name = stepA1.name ∧ stepA2.task = stepA1.task ∧
    (stepA2.task_runs = stepA1.task_runs ∨
      stepA2.task_runs = stepA1.task_runs ++
        [{ task_id := "t2", date_start := some 5, end_time := none }]) :=
  ⟨by decide,
   (C7_history wfDone "a" "t2" 5).1.2 0 stepA1 stepA2
     (by decide) (by decide)⟩

/-! Claim C9 -/

/-- A task collection holding one record, `t9`, whose stored result is
not decodable JSON. -/
def colBad : TaskCol :=
  fun tid =>
    if tid = "t9" then some { args := [], result := some "not json" }
    else none

/-- C9 counterexample: with an undecodable stored result,
`get_task_instance` does not surface the result as unavailable/null —
it keeps the raw payload in the `result` field. -/
theorem C9_counterexample :
    Workflow.get_task_instance decFail colBad "t9" none =
      some { args := [], result := ResultField.raw "not json" } ∧
    ResultField.raw "not json" ≠ ResultField.absent := by
  constructor
  · rfl
  · decide

/-- C9 amended: when a stored task result cannot be decoded,
`get_task_instance` recovers locally rather than raising — it returns
the record with the `result` field left as the raw undecoded payload,
so the enclosing status/view read does not fail. -/
theorem C9_get_task_instance_raw (dec : JsonDec) (col : TaskCol)
    (task_id : String) (date_start : Option Nat) (t : TaskRecord)
    (s : String) (hcol : col task_id = some t)
    (hres : t.result = some s) (hdec : dec s = none) :
    Workflow.get_task_instance dec col task_id date_start =
      some { args := t.args, result := ResultField.raw s,
             date_start := date_start } := by
  simp [Workflow.get_task_instance, hcol, hres, hdec]

/-- C9 amended witness: the undecodable record `t9` comes back with its
raw payload. -/
theorem C9_witness :
    Workflow.get_task_instance decFail colBad "t9" (some 3) =
      some { args := [], result := ResultField.raw "not json",
             date_start := some 3 } :=
  C9_get_task_instance_raw decFail colBad "t9" (some 3)
    { args := [], result := some "not json" } "not json"
    (by decide) rfl rfl

/-! Claim C10 -/

/-- C10: construction resolves its two modes by precedence, not mutual
exclusion — with both `workflow_id` and `steps` supplied it behaves
exactly as with `steps = none` (loading by id, `steps` silently
ignored); with both `none` it fails with an error, and the error path
carries no persistence effect. -/
theorem C10_init_precedence (db : String → Option WorkflowDoc)
    (wid : String) (steps : Option (List RawStep)) (name : Option String)
    (newId : String) (now : Nat) :
    (workflowInit db (some wid) steps name newId now =
      workflowInit db (some wid) none name newId now ∧
      ∀ doc, db wid = some doc →
        workflowInit db (some wid) steps name newId now =
          Except.ok (doc, [])) ∧
    workflowInit db none none name newId now =
      Except.error "Either workflow_id or steps should not be None" := by
  refine ⟨⟨rfl, ?_⟩, rfl⟩
  intro doc hdoc
  simp [workflowInit, hdoc]

/-- C10 witness: with a database holding `wfDone` under `w1`, passing
both `workflow_id = w1` and a step list loads `wfDone` and ignores the
steps. -/
theorem C10_witness :
    workflowInit (fun wid => if wid = "w1" then some wfDone else none)
      (some "w1") (some [{ name := some "x", task := some "tx" }])
      none "fresh" 0 = Except.ok (wfDone, []) :=
  ((C10_init_precedence
      (fun wid => if wid = "w1" then some wfDone else none) "w1"
      (some [{ name := some "x", task := some "tx" }])
      none "fresh" 0).1).2 wfDone (by decide)

end Rhythm
